import Mathlib

/-!
# Event booking system: shallow embedding and verification

A shallow embedding of the event-ticketing backend (controllers
`eventController.js` and `bookingController.js`, models `Event.js` and
`Booking.js`). JS numbers that hold ticket counts and prices are modelled
as `Int` (counts are integers by Joi validation; `availableTickets` has no
lower bound in the Mongoose schema, so it may go negative). The MongoDB
document stores are modelled as lists of records with numeric ids;
`findById` is `List.find?` on the id and `save` of an existing document is
an id-preserving replacement. Request validation (Joi schemas) is modelled
by `Option` fields for optional/possibly-missing values plus an explicit
validity check mirroring each schema's constraints.
-/

namespace EventBooking

/-- Event status enum of the Mongoose `Event` schema: `draft`, `published`, `cancelled`. -/
inductive EventStatus
  | draft
  | published
  | cancelled
deriving DecidableEq, Repr

/-- Booking status enum of the Mongoose `Booking` schema: `pending`, `confirmed`, `cancelled`. -/
inductive BookingStatus
  | pending
  | confirmed
  | cancelled
deriving DecidableEq, Repr

/-- An `Event` document. Fields follow the Mongoose schema; `organizer` is the
owning user's id, `category` is optional. -/
structure Event where
  id : Nat
  title : String
  description : String
  organizer : Nat
  date : Int
  location : String
  totalTickets : Int
  availableTickets : Int
  ticketPrice : Int
  status : EventStatus
  category : Option String
deriving DecidableEq, Repr

/-- A `Booking` document. Fields follow the Mongoose schema. -/
structure Booking where
  id : Nat
  customer : Nat
  event : Nat
  quantity : Int
  totalPrice : Int
  status : BookingStatus
  bookingReference : String
deriving DecidableEq, Repr

/-- The database: the `events` and `bookings` collections plus fresh-id
counters standing for MongoDB ObjectId generation. -/
structure DB where
  events : List Event
  bookings : List Booking
  nextEventId : Nat
  nextBookingId : Nat
deriving DecidableEq, Repr

/-- The empty database. -/
def initDB : DB := ⟨[], [], 0, 0⟩

/-- Replace every element whose key equals `key a` by `a` (models `save()` on
an already-persisted document: the stored copy with the same id is overwritten). -/
def replaceBy {α : Type} (key : α → Nat) (a : α) (l : List α) : List α :=
  l.map (fun x => if key x = key a then a else x)

/-- `Event.findById`. -/
def findEvent (db : DB) (eid : Nat) : Option Event :=
  db.events.find? (fun e => e.id == eid)

/-- `Booking.findById`. -/
def findBooking (db : DB) (bid : Nat) : Option Booking :=
  db.bookings.find? (fun b => b.id == bid)

/-- `event.save()` for an event that already exists in the store. -/
def saveEvent (db : DB) (e : Event) : DB :=
  { db with events := replaceBy Event.id e db.events }

/-- `booking.save()` for a booking that already exists in the store. -/
def saveBooking (db : DB) (b : Booking) : DB :=
  { db with bookings := replaceBy Booking.id b db.bookings }

/-! ## Event controller (`eventController.js`) -/

/-- Request body for `POST /events`, after Joi parsing: all fields of
`createEventSchema` are required, so they are present here; validity of the
numeric constraints is checked by `validCreateBody`. -/
structure CreateBody where
  title : String
  description : String
  date : Int
  location : String
  totalTickets : Int
  ticketPrice : Int
  category : Option String
deriving DecidableEq, Repr

/-- `createEventSchema`: `totalTickets` is an integer `min(1)`, `ticketPrice`
a number `min(0)`. -/
def validCreateBody (b : CreateBody) : Bool :=
  decide (1 ≤ b.totalTickets) && decide (0 ≤ b.ticketPrice)

/-- Result of `createEvent`. -/
inductive CreateResult
  | validationError
  | created (e : Event)
deriving DecidableEq, Repr

/-- HTTP status code sent for each `createEvent` outcome. -/
def CreateResult.http : CreateResult → Nat
  | .validationError => 400
  | .created _ => 201

/-- `createEvent`: validate, then insert a new event owned by the caller with
`availableTickets := totalTickets` and default status `draft`. -/
def createEvent (db : DB) (userId : Nat) (body : CreateBody) : CreateResult × DB :=
  if validCreateBody body then
    let ev : Event :=
      { id := db.nextEventId
        title := body.title
        description := body.description
        organizer := userId
        date := body.date
        location := body.location
        totalTickets := body.totalTickets
        availableTickets := body.totalTickets
        ticketPrice := body.ticketPrice
        status := EventStatus.draft
        category := body.category }
    (.created ev, { db with events := db.events ++ [ev], nextEventId := db.nextEventId + 1 })
  else (.validationError, db)

/-- Request body for `PUT /events/:id` (`updateEventSchema`): every field is
optional; `none` means the field was absent from the request. -/
structure UpdateBody where
  title : Option String
  description : Option String
  date : Option Int
  location : Option String
  totalTickets : Option Int
  ticketPrice : Option Int
  status : Option EventStatus
  category : Option String
deriving DecidableEq, Repr

/-- The update body with no field present. -/
def emptyUpdate : UpdateBody := ⟨none, none, none, none, none, none, none, none⟩

/-- `updateEventSchema`: if present, `totalTickets` must be an integer
`min(1)` and `ticketPrice` a number `min(0)`. -/
def validUpdateBody (b : UpdateBody) : Bool :=
  b.totalTickets.all (fun t => decide (1 ≤ t)) && b.ticketPrice.all (fun p => decide (0 ≤ p))

/-- The event produced by `updateEvent`'s mutation step: when a truthy
`totalTickets` different from the current one is supplied, the controller sets
`value.availableTickets = event.availableTickets + (value.totalTickets -
event.totalTickets)`; then `Object.assign(event, value)` overwrites exactly
the supplied fields. (`t ≠ 0` mirrors JS truthiness of `value.totalTickets`.) -/
def applyUpdate (ev : Event) (b : UpdateBody) : Event :=
  let newAvail : Option Int :=
    match b.totalTickets with
    | some t => if t ≠ 0 ∧ t ≠ ev.totalTickets
                then some (ev.availableTickets + (t - ev.totalTickets))
                else none
    | none => none
  { ev with
    title := b.title.getD ev.title
    description := b.description.getD ev.description
    date := b.date.getD ev.date
    location := b.location.getD ev.location
    totalTickets := b.totalTickets.getD ev.totalTickets
    ticketPrice := b.ticketPrice.getD ev.ticketPrice
    status := b.status.getD ev.status
    category := match b.category with
                | some c => some c
                | none => ev.category
    availableTickets := newAvail.getD ev.availableTickets }

/-- Result of `updateEvent`. -/
inductive UpdateResult
  | validationError
  | notFound
  | forbidden
  | ok (e : Event)
deriving DecidableEq, Repr

/-- HTTP status code sent for each `updateEvent` outcome. -/
def UpdateResult.http : UpdateResult → Nat
  | .validationError => 400
  | .notFound => 404
  | .forbidden => 403
  | .ok _ => 200

/-- `updateEvent`: validate the body, look the event up, check ownership,
apply the update and save. Note the controller validates *before* the
lookup and the ownership check. -/
def updateEvent (db : DB) (userId : Nat) (eid : Nat) (body : UpdateBody) :
    UpdateResult × DB :=
  if validUpdateBody body then
    match findEvent db eid with
    | none => (.notFound, db)
    | some ev =>
      if ev.organizer ≠ userId then (.forbidden, db)
      else
        let ev2 := applyUpdate ev body
        (.ok ev2, saveEvent db ev2)
  else (.validationError, db)

/-- Result of `deleteEvent`. -/
inductive DeleteResult
  | notFound
  | forbidden
  | ok
deriving DecidableEq, Repr

/-- HTTP status code sent for each `deleteEvent` outcome. -/
def DeleteResult.http : DeleteResult → Nat
  | .notFound => 404
  | .forbidden => 403
  | .ok => 200

/-- `deleteEvent`: look up, check ownership, `Event.deleteOne({_id})`. -/
def deleteEvent (db : DB) (userId : Nat) (eid : Nat) : DeleteResult × DB :=
  match findEvent db eid with
  | none => (.notFound, db)
  | some ev =>
    if ev.organizer ≠ userId then (.forbidden, db)
    else (.ok, { db with events := db.events.filter (fun e => e.id ≠ eid) })

/-- Result of `publishEvent`. -/
inductive PublishResult
  | notFound
  | forbidden
  | ok (e : Event)
deriving DecidableEq, Repr

/-- HTTP status code sent for each `publishEvent` outcome. -/
def PublishResult.http : PublishResult → Nat
  | .notFound => 404
  | .forbidden => 403
  | .ok _ => 200

/-- `publishEvent`: look up, check ownership, set `status = 'published'`, save. -/
def publishEvent (db : DB) (userId : Nat) (eid : Nat) : PublishResult × DB :=
  match findEvent db eid with
  | none => (.notFound, db)
  | some ev =>
    if ev.organizer ≠ userId then (.forbidden, db)
    else
      let ev2 := { ev with status := EventStatus.published }
      (.ok ev2, saveEvent db ev2)

/-- The string stored in `Event.status` (what a `?status=` query compares against). -/
def statusString : EventStatus → String
  | .draft => "draft"
  | .published => "published"
  | .cancelled => "cancelled"

/-- `getEvents`: `const { status = 'published', category } = req.query`; the
filter matches on status (defaulting to `'published'`) and, when supplied, on
category. -/
def getEvents (db : DB) (statusParam : Option String) (categoryParam : Option String) :
    List Event :=
  let status := statusParam.getD "published"
  db.events.filter (fun e =>
    statusString e.status == status &&
      (match categoryParam with
       | some c => e.category == some c
       | none => true))

/-! ## Booking controller (`bookingController.js`) -/

/-- Request body for `POST /bookings` after Joi parsing: `eventId` is a
required string (`none` = missing), `quantity` a required integer (`none` =
missing or not a number); the `min(1)` constraint is checked in `bookTickets`. -/
structure BookBody where
  eventId : Option Nat
  quantity : Option Int
deriving DecidableEq, Repr

/-- Result of `bookTickets`. `insufficientTickets` carries the remaining
count the 400 response reports. -/
inductive BookResult
  | validationError
  | notFound
  | notPublished
  | insufficientTickets (remaining : Int)
  | created (b : Booking)
deriving DecidableEq, Repr

/-- HTTP status code sent for each `bookTickets` outcome. -/
def BookResult.http : BookResult → Nat
  | .validationError => 400
  | .notFound => 404
  | .notPublished => 400
  | .insufficientTickets _ => 400
  | .created _ => 201

/-- The literal `message` string of the JSON response, where the controller
uses a fixed string (the validation and success messages vary / carry data). -/
def bookMessage : BookResult → Option String
  | .notFound => some "Event not found"
  | .notPublished => some "Event is not published"
  | .insufficientTickets r =>
      some ("Not enough tickets available. Only " ++ toString r ++ " remaining")
  | _ => none

/-- The booking document `bookTickets` inserts: `status: 'confirmed'`,
`totalPrice = event.ticketPrice * quantity`, a fresh id, and the booking
reference (`'BK' + Date.now() + random` in the controller) modelled as an
opaque string derived from the fresh id. -/
def mkBooking (db : DB) (userId eid : Nat) (q price : Int) : Booking :=
  { id := db.nextBookingId
    customer := userId
    event := eid
    quantity := q
    totalPrice := price * q
    status := BookingStatus.confirmed
    bookingReference := "BK" ++ toString db.nextBookingId }

/-- `bookTickets`: validate the body, look the event up, require
`status == 'published'` and `availableTickets >= quantity`, then insert a
`confirmed` booking priced `event.ticketPrice * quantity` and save the event
with `availableTickets -= quantity`. -/
def bookTickets (db : DB) (userId : Nat) (body : BookBody) : BookResult × DB :=
  match body.eventId, body.quantity with
  | some eid, some q =>
    if q < 1 then (.validationError, db)
    else
      match findEvent db eid with
      | none => (.notFound, db)
      | some ev =>
        if ev.status ≠ EventStatus.published then (.notPublished, db)
        else if ev.availableTickets < q then (.insufficientTickets ev.availableTickets, db)
        else
          let booking := mkBooking db userId eid q ev.ticketPrice
          let db1 : DB :=
            { db with
              bookings := db.bookings ++ [booking]
              nextBookingId := db.nextBookingId + 1 }
          (.created booking, saveEvent db1 { ev with availableTickets := ev.availableTickets - q })
  | _, _ => (.validationError, db)

/-- Result of `cancelBooking`. `serverError` is the caught `TypeError` (500)
hit when the booking's event no longer exists — the booking has already been
saved as cancelled at that point. -/
inductive CancelResult
  | notFound
  | forbidden
  | alreadyCancelled
  | serverError
  | ok (b : Booking)
deriving DecidableEq, Repr

/-- HTTP status code sent for each `cancelBooking` outcome. -/
def CancelResult.http : CancelResult → Nat
  | .notFound => 404
  | .forbidden => 403
  | .alreadyCancelled => 400
  | .serverError => 500
  | .ok _ => 200

/-- `cancelBooking`: look the booking up, require the caller to be its
customer and the status not already `cancelled`; then save the booking as
`cancelled` and save the owning event with `availableTickets += quantity`. -/
def cancelBooking (db : DB) (userId : Nat) (bid : Nat) : CancelResult × DB :=
  match findBooking db bid with
  | none => (.notFound, db)
  | some booking =>
    if booking.customer ≠ userId then (.forbidden, db)
    else if booking.status = BookingStatus.cancelled then (.alreadyCancelled, db)
    else
      let booking2 := { booking with status := BookingStatus.cancelled }
      let db1 := saveBooking db booking2
      match findEvent db1 booking.event with
      | none => (.serverError, db1)
      | some ev =>
          (.ok booking2,
           saveEvent db1 { ev with availableTickets := ev.availableTickets + booking.quantity })

/-- Result of `getBookingById`. `serverError` is the caught `TypeError` hit
when `populate('event')` yields `null` and `booking.event._id` is read. -/
inductive GetBookingResult
  | notFound
  | forbidden
  | serverError
  | ok (b : Booking)
deriving DecidableEq, Repr

/-- HTTP status code sent for each `getBookingById` outcome. -/
def GetBookingResult.http : GetBookingResult → Nat
  | .notFound => 404
  | .forbidden => 403
  | .serverError => 500
  | .ok _ => 200

/-- `getBookingById`: the booking is visible to its customer; otherwise the
booking's event is loaded and the caller must be that event's organizer. -/
def getBookingById (db : DB) (userId : Nat) (bid : Nat) : GetBookingResult :=
  match findBooking db bid with
  | none => .notFound
  | some b =>
    if b.customer ≠ userId then
      match findEvent db b.event with
      | none => .serverError
      | some ev => if ev.organizer ≠ userId then .forbidden else .ok b
    else .ok b

/-! ## Serialized operation sequences

The five state-changing operations of the claims, applied one at a time
(each request runs to completion before the next starts). -/

/-- One serialized API operation (the acting user's id is part of the operation). -/
inductive Op
  | create (userId : Nat) (body : CreateBody)
  | update (userId : Nat) (eid : Nat) (body : UpdateBody)
  | publish (userId : Nat) (eid : Nat)
  | book (userId : Nat) (body : BookBody)
  | cancel (userId : Nat) (bid : Nat)
deriving DecidableEq, Repr

/-- The state transition of one serialized operation. -/
def applyOp (db : DB) : Op → DB
  | .create u b => (createEvent db u b).2
  | .update u eid b => (updateEvent db u eid b).2
  | .publish u eid => (publishEvent db u eid).2
  | .book u b => (bookTickets db u b).2
  | .cancel u bid => (cancelBooking db u bid).2

/-- The state after a serialized sequence of operations. -/
def applyOps (db : DB) (ops : List Op) : DB := ops.foldl applyOp db

/-- Number of tickets sold on an event according to its counters. -/
def bookedCount (e : Event) : Int := e.totalTickets - e.availableTickets

/-- The spec's per-event inventory invariant `0 ≤ availableTickets ≤ totalTickets`. -/
def eventOk (e : Event) : Prop :=
  0 ≤ e.availableTickets ∧ e.availableTickets ≤ e.totalTickets

instance (e : Event) : Decidable (eventOk e) := by
  unfold eventOk
  infer_instance

/-- The inventory invariant for every event in the store. -/
def dbInvariant (db : DB) : Prop := ∀ e ∈ db.events, eventOk e

instance (db : DB) : Decidable (dbInvariant db) := by
  unfold dbInvariant
  infer_instance

/-! ## Store lemmas: `find?` and id-preserving replacement -/

section KeyLemmas

variable {α : Type} (key : α → Nat)

theorem find?_key_eq {l : List α} {k : Nat} {a : α}
    (h : l.find? (fun x => key x == k) = some a) : key a = k := by
  simpa using List.find?_some h

theorem find?_key_mem {l : List α} {k : Nat} {a : α}
    (h : l.find? (fun x => key x == k) = some a) : a ∈ l :=
  List.mem_of_find?_eq_some h

theorem find?_replaceBy_eq {l : List α} {k : Nat} {a a' : α}
    (h : l.find? (fun x => key x == k) = some a) (hk : key a' = key a) :
    (replaceBy key a' l).find? (fun x => key x == k) = some a' := by
  have hak : key a = k := find?_key_eq key h
  induction l with
  | nil => simp at h
  | cons x xs ih =>
    by_cases hx : key x = k
    · have hxa : x = a := by
        rw [List.find?_cons_of_pos _ (by simpa using hx)] at h
        exact Option.some.inj h
      have h1 : key x = key a' := by rw [hk, hxa]
      simp only [replaceBy, List.map_cons, if_pos h1]
      exact List.find?_cons_of_pos _ (by simp [hk, hak])
    · rw [List.find?_cons_of_neg _ (by simpa using hx)] at h
      have h1 : ¬ key x = key a' := by rw [hk, hak]; exact hx
      simp only [replaceBy, List.map_cons, if_neg h1]
      rw [List.find?_cons_of_neg _ (by simpa using hx)]
      exact ih h

theorem find?_replaceBy_ne {l : List α} {k : Nat} {a' : α} (h : key a' ≠ k) :
    (replaceBy key a' l).find? (fun x => key x == k) = l.find? (fun x => key x == k) := by
  induction l with
  | nil => rfl
  | cons x xs ih =>
    by_cases hx : key x = key a'
    · have hxk : ¬ key x = k := by rw [hx]; exact h
      simp only [replaceBy, List.map_cons, if_pos hx]
      rw [List.find?_cons_of_neg _ (by simpa using h),
          List.find?_cons_of_neg _ (by simpa using hxk)]
      exact ih
    · simp only [replaceBy, List.map_cons, if_neg hx]
      by_cases hxk : key x = k
      · rw [List.find?_cons_of_pos _ (by simpa using hxk),
            List.find?_cons_of_pos _ (by simpa using hxk)]
      · rw [List.find?_cons_of_neg _ (by simpa using hxk),
            List.find?_cons_of_neg _ (by simpa using hxk)]
        exact ih

theorem mem_replaceBy {l : List α} {a' y : α} (h : y ∈ replaceBy key a' l) :
    y = a' ∨ (y ∈ l ∧ key y ≠ key a') := by
  obtain ⟨x, hx, hy⟩ := List.mem_map.mp h
  by_cases hk : key x = key a'
  · left
    rw [if_pos hk] at hy
    exact hy.symm
  · right
    rw [if_neg hk] at hy
    exact ⟨hy ▸ hx, hy ▸ hk⟩

theorem exists_key_replaceBy {l : List α} {k : Nat} {a' : α} (h : ∃ e ∈ l, key e = k) :
    ∃ e ∈ replaceBy key a' l, key e = k := by
  obtain ⟨e, he, hk⟩ := h
  by_cases hx : key e = key a'
  · exact ⟨a', List.mem_map.mpr ⟨e, he, by rw [if_pos hx]⟩, by rw [← hx, hk]⟩
  · exact ⟨e, List.mem_map.mpr ⟨e, he, by rw [if_neg hx]⟩, hk⟩

theorem replaceBy_of_forall_ne {l : List α} {a' : α} (h : ∀ y ∈ l, key y ≠ key a') :
    replaceBy key a' l = l := by
  induction l with
  | nil => rfl
  | cons x xs ih =>
    simp only [replaceBy, List.map_cons, if_neg (h x (List.mem_cons_self x xs))]
    rw [List.cons_inj_right]
    exact ih (fun y hy => h y (List.mem_cons_of_mem x hy))

theorem replaceBy_replaceBy {l : List α} {a' : α} :
    replaceBy key a' (replaceBy key a' l) = replaceBy key a' l := by
  unfold replaceBy
  rw [List.map_map]
  apply List.map_congr_left
  intro x _
  by_cases hk : key x = key a' <;> simp [hk]

theorem replaceBy_map_key {l : List α} {a' : α} :
    (replaceBy key a' l).map key = l.map key := by
  unfold replaceBy
  rw [List.map_map]
  apply List.map_congr_left
  intro x _
  by_cases hk : key x = key a' <;> simp [hk]

theorem find?_isSome_of_exists {l : List α} {k : Nat} (h : ∃ e ∈ l, key e = k) :
    (l.find? (fun x => key x == k)).isSome = true := by
  obtain ⟨e, he, hk⟩ := h
  induction l with
  | nil => simp at he
  | cons x xs ih =>
    by_cases hx : key x = k
    · rw [List.find?_cons_of_pos _ (by simpa using hx)]
      rfl
    · rw [List.find?_cons_of_neg _ (by simpa using hx)]
      rcases List.mem_cons.mp he with rfl | hmem
      · exact absurd hk hx
      · exact ih hmem

theorem find?_append_self {l : List α} {a : α} (h : ∀ y ∈ l, key y ≠ key a) :
    (l ++ [a]).find? (fun x => key x == key a) = some a := by
  induction l with
  | nil => simp
  | cons x xs ih =>
    rw [List.cons_append,
        List.find?_cons_of_neg _ (by simpa using h x (List.mem_cons_self x xs))]
    exact ih (fun y hy => h y (List.mem_cons_of_mem x hy))

end KeyLemmas

/-! ## Confirmed-booking totals -/

/-- The contribution of one booking to an event's sold-ticket count: its
quantity when it is a `confirmed` booking for that event, else zero. -/
def contrib (eid : Nat) (b : Booking) : Int :=
  if b.event = eid ∧ b.status = BookingStatus.confirmed then b.quantity else 0

/-- Total quantity held by `confirmed` bookings for event `eid`. -/
def confirmedSum (eid : Nat) : List Booking → Int
  | [] => 0
  | b :: bs => contrib eid b + confirmedSum eid bs

theorem confirmedSum_append (eid : Nat) (bs : List Booking) (b : Booking) :
    confirmedSum eid (bs ++ [b]) = confirmedSum eid bs + contrib eid b := by
  induction bs with
  | nil => simp [confirmedSum]
  | cons x xs ih => simp [confirmedSum, ih]; ring

theorem confirmedSum_nonneg (eid : Nat) {bs : List Booking}
    (h : ∀ b ∈ bs, 1 ≤ b.quantity) : 0 ≤ confirmedSum eid bs := by
  induction bs with
  | nil => simp [confirmedSum]
  | cons x xs ih =>
    have hx : (0 : Int) ≤ contrib eid x := by
      unfold contrib
      split
      · linarith [h x (List.mem_cons_self x xs)]
      · exact le_refl 0
    have hxs : 0 ≤ confirmedSum eid xs := ih (fun b hb => h b (List.mem_cons_of_mem x hb))
    simpa [confirmedSum] using add_nonneg hx hxs

theorem confirmedSum_eq_zero (eid : Nat) {bs : List Booking}
    (h : ∀ b ∈ bs, b.event ≠ eid) : confirmedSum eid bs = 0 := by
  induction bs with
  | nil => rfl
  | cons x xs ih =>
    have hx : contrib eid x = 0 := by
      unfold contrib
      rw [if_neg]
      intro hc
      exact h x (List.mem_cons_self x xs) hc.1
    rw [confirmedSum, hx, ih (fun b hb => h b (List.mem_cons_of_mem x hb)), add_zero]

theorem confirmedSum_replaceBy (eid : Nat) {bs : List Booking} (b b' : Booking)
    (hnd : (bs.map Booking.id).Nodup) (hmem : b ∈ bs) (hid : b'.id = b.id) :
    confirmedSum eid (replaceBy Booking.id b' bs) =
      confirmedSum eid bs - contrib eid b + contrib eid b' := by
  induction bs with
  | nil => simp at hmem
  | cons x xs ih =>
    rw [List.map_cons, List.nodup_cons] at hnd
    rcases List.mem_cons.mp hmem with rfl | hmem'
    · have hx : Booking.id b = Booking.id b' := hid.symm
      have hrest : replaceBy Booking.id b' xs = xs := by
        apply replaceBy_of_forall_ne
        intro y hy hk
        apply hnd.1
        have hmm : Booking.id y ∈ List.map Booking.id xs := List.mem_map_of_mem Booking.id hy
        rwa [hk, hid] at hmm
      show confirmedSum eid ((if Booking.id b = Booking.id b' then b' else b) ::
            replaceBy Booking.id b' xs) = _
      rw [if_pos hx, hrest]
      simp only [confirmedSum]
      ring
    · have hx : ¬ Booking.id x = Booking.id b' := by
        rw [hid]
        intro hk
        apply hnd.1
        rw [hk]
        exact List.mem_map_of_mem Booking.id hmem'
      show confirmedSum eid ((if Booking.id x = Booking.id b' then b' else x) ::
            replaceBy Booking.id b' xs) = _
      rw [if_neg hx]
      simp only [confirmedSum]
      rw [ih hnd.2 hmem']
      ring

/-! ## Reachable-state invariant -/

/-- Structural invariant of every database state reachable from `initDB` by
serialized operations: ids are fresh and duplicate-free, bookings are well
formed (positive quantity, never `pending`, referencing a stored event), and
each event's counters satisfy the conservation law
`availableTickets = totalTickets - confirmedSum` — the counters and the set
of confirmed bookings always agree. -/
structure Inv (db : DB) : Prop where
  eventIdsLt : ∀ e ∈ db.events, e.id < db.nextEventId
  eventNodup : (db.events.map Event.id).Nodup
  bookingIdsLt : ∀ b ∈ db.bookings, b.id < db.nextBookingId
  bookingNodup : (db.bookings.map Booking.id).Nodup
  bookingQty : ∀ b ∈ db.bookings, 1 ≤ b.quantity
  bookingEventExists : ∀ b ∈ db.bookings, ∃ e ∈ db.events, e.id = b.event
  bookingNotPending : ∀ b ∈ db.bookings, b.status ≠ BookingStatus.pending
  conservation : ∀ e ∈ db.events,
    e.availableTickets = e.totalTickets - confirmedSum e.id db.bookings

theorem inv_initDB : Inv initDB := by
  constructor <;> simp [initDB]

/-- Conservation plus nonnegative confirmed totals bound `availableTickets`
by `totalTickets` in every invariant state. -/
theorem avail_le_total_of_inv {db : DB} (h : Inv db) :
    ∀ e ∈ db.events, e.availableTickets ≤ e.totalTickets := by
  intro e he
  have hc := h.conservation e he
  have hn := confirmedSum_nonneg e.id h.bookingQty
  linarith

/-- Saving an id-preserving modification of a stored event keeps the
invariant, provided the modified event satisfies the conservation law. -/
theorem inv_saveEvent {db : DB} {eid : Nat} {ev ev2 : Event} (h : Inv db)
    (hf : findEvent db eid = some ev) (hid : ev2.id = ev.id)
    (hcons : ev2.availableTickets = ev2.totalTickets - confirmedSum ev2.id db.bookings) :
    Inv (saveEvent db ev2) := by
  have hmem : ev ∈ db.events := find?_key_mem Event.id hf
  constructor
  · intro e he
    rcases mem_replaceBy Event.id he with rfl | ⟨he', _⟩
    · rw [show Event.id e = Event.id ev from hid]
      exact h.eventIdsLt ev hmem
    · exact h.eventIdsLt e he'
  · show ((replaceBy Event.id ev2 db.events).map Event.id).Nodup
    rw [replaceBy_map_key]
    exact h.eventNodup
  · exact h.bookingIdsLt
  · exact h.bookingNodup
  · exact h.bookingQty
  · intro b hb
    exact exists_key_replaceBy Event.id (h.bookingEventExists b hb)
  · exact h.bookingNotPending
  · intro e he
    rcases mem_replaceBy Event.id he with rfl | ⟨he', _⟩
    · exact hcons
    · exact h.conservation e he'

theorem inv_createEvent (db : DB) (u : Nat) (body : CreateBody) (h : Inv db) :
    Inv (createEvent db u body).2 := by
  unfold createEvent
  by_cases hv : validCreateBody body
  · simp only [if_pos hv]
    have hfresh : ∀ b ∈ db.bookings, b.event ≠ db.nextEventId := by
      intro b hb heq
      obtain ⟨e, he, hk⟩ := h.bookingEventExists b hb
      exact absurd (hk.trans heq) (Nat.ne_of_lt (h.eventIdsLt e he))
    constructor
    · intro e he
      rcases List.mem_append.mp he with he' | he'
      · exact Nat.lt_succ_of_lt (h.eventIdsLt e he')
      · rw [List.mem_singleton.mp he']
        exact Nat.lt_succ_self _
    · rw [List.map_append]
      refine List.Nodup.append h.eventNodup (List.nodup_singleton _) ?_
      intro k hk1 hk2
      rw [List.map_singleton, List.mem_singleton] at hk2
      obtain ⟨e, he, hk⟩ := List.mem_map.mp hk1
      exact absurd (hk.trans hk2) (Nat.ne_of_lt (h.eventIdsLt e he))
    · exact h.bookingIdsLt
    · exact h.bookingNodup
    · exact h.bookingQty
    · intro b hb
      obtain ⟨e, he, hk⟩ := h.bookingEventExists b hb
      exact ⟨e, List.mem_append_left _ he, hk⟩
    · exact h.bookingNotPending
    · intro e he
      rcases List.mem_append.mp he with he' | he'
      · exact h.conservation e he'
      · rw [List.mem_singleton.mp he']
        show body.totalTickets = body.totalTickets - confirmedSum db.nextEventId db.bookings
        rw [confirmedSum_eq_zero _ hfresh, sub_zero]
  · simp only [if_neg hv]
    exact h

theorem inv_publishEvent (db : DB) (u eid : Nat) (h : Inv db) :
    Inv (publishEvent db u eid).2 := by
  unfold publishEvent
  cases hf : findEvent db eid with
  | none => exact h
  | some ev =>
    by_cases ho : ev.organizer ≠ u
    · simp only [if_pos ho]
      exact h
    · simp only [if_neg ho]
      refine inv_saveEvent h hf rfl ?_
      exact h.conservation ev (find?_key_mem Event.id hf)

theorem applyUpdate_organizer (ev : Event) (b : UpdateBody) :
    (applyUpdate ev b).organizer = ev.organizer := rfl

theorem inv_updateEvent (db : DB) (u eid : Nat) (body : UpdateBody) (h : Inv db) :
    Inv (updateEvent db u eid body).2 := by
  unfold updateEvent
  by_cases hv : validUpdateBody body
  · simp only [if_pos hv]
    cases hf : findEvent db eid with
    | none => exact h
    | some ev =>
      by_cases ho : ev.organizer ≠ u
      · simp only [if_pos ho]
        exact h
      · simp only [if_neg ho]
        refine inv_saveEvent h hf rfl ?_
        have hc := h.conservation ev (find?_key_mem Event.id hf)
        show (applyUpdate ev body).availableTickets =
          (applyUpdate ev body).totalTickets - confirmedSum ev.id db.bookings
        unfold applyUpdate
        cases ht : body.totalTickets with
        | none => simpa using hc
        | some t =>
          by_cases hch : t ≠ 0 ∧ t ≠ ev.totalTickets
          · simp only [if_pos hch, Option.getD_some]
            linarith
          · simp only [if_neg hch, Option.getD_none, Option.getD_some]
            have h1 : 1 ≤ t := by
              have := hv
              unfold validUpdateBody at this
              rw [ht] at this
              simp at this
              exact this.1
            have ht0 : t ≠ 0 := by omega
            have hte : t = ev.totalTickets := by
              by_contra hne
              exact hch ⟨ht0, hne⟩
            rw [hte]
            exact hc
  · simp only [if_neg hv]
    exact h

theorem inv_bookTickets (db : DB) (u : Nat) (body : BookBody) (h : Inv db) :
    Inv (bookTickets db u body).2 := by
  unfold bookTickets
  cases hbe : body.eventId with
  | none => exact h
  | some eid =>
    cases hbq : body.quantity with
    | none => exact h
    | some q =>
      by_cases hq : q < 1
      · simp only [if_pos hq]
        exact h
      · simp only [if_neg hq]
        cases hf : findEvent db eid with
        | none => exact h
        | some ev =>
          by_cases hst : ev.status ≠ EventStatus.published
          · simp only [if_pos hst]
            exact h
          · simp only [if_neg hst]
            by_cases hav : ev.availableTickets < q
            · simp only [if_pos hav]
              exact h
            · simp only [if_neg hav]
              have hmem : ev ∈ db.events := find?_key_mem Event.id hf
              have hkey : ev.id = eid := find?_key_eq Event.id hf
              have hc := h.conservation ev hmem
              show Inv
                { events := replaceBy Event.id
                    { ev with availableTickets := ev.availableTickets - q } db.events
                  bookings := db.bookings ++ [mkBooking db u eid q ev.ticketPrice]
                  nextEventId := db.nextEventId
                  nextBookingId := db.nextBookingId + 1 }
              constructor
              · intro e he
                rcases mem_replaceBy Event.id he with rfl | ⟨he', _⟩
                · exact h.eventIdsLt ev hmem
                · exact h.eventIdsLt e he'
              · show ((replaceBy Event.id _ db.events).map Event.id).Nodup
                rw [replaceBy_map_key]
                exact h.eventNodup
              · intro b hb
                rcases List.mem_append.mp hb with hb' | hb'
                · exact Nat.lt_succ_of_lt (h.bookingIdsLt b hb')
                · rw [List.mem_singleton.mp hb']
                  exact Nat.lt_succ_self _
              · rw [List.map_append]
                refine List.Nodup.append h.bookingNodup (List.nodup_singleton _) ?_
                intro k hk1 hk2
                rw [List.map_singleton, List.mem_singleton] at hk2
                obtain ⟨b, hb, hk⟩ := List.mem_map.mp hk1
                exact absurd (hk.trans hk2) (Nat.ne_of_lt (h.bookingIdsLt b hb))
              · intro b hb
                rcases List.mem_append.mp hb with hb' | hb'
                · exact h.bookingQty b hb'
                · rw [List.mem_singleton.mp hb']
                  show (1 : Int) ≤ q
                  omega
              · intro b hb
                rcases List.mem_append.mp hb with hb' | hb'
                · obtain ⟨e, he, hk⟩ := h.bookingEventExists b hb'
                  exact exists_key_replaceBy Event.id ⟨e, he, hk⟩
                · rw [List.mem_singleton.mp hb']
                  exact exists_key_replaceBy Event.id ⟨ev, hmem, hkey⟩
              · intro b hb
                rcases List.mem_append.mp hb with hb' | hb'
                · exact h.bookingNotPending b hb'
                · rw [List.mem_singleton.mp hb']
                  intro hcon
                  exact BookingStatus.noConfusion hcon
              · intro e he
                rcases mem_replaceBy Event.id he with rfl | ⟨he', hne⟩
                · show ev.availableTickets - q = ev.totalTickets -
                    confirmedSum ev.id (db.bookings ++ [mkBooking db u eid q ev.ticketPrice])
                  rw [confirmedSum_append]
                  have hcb : contrib ev.id (mkBooking db u eid q ev.ticketPrice) = q := by
                    unfold contrib mkBooking
                    rw [if_pos ⟨hkey.symm, rfl⟩]
                  rw [hcb]
                  linarith
                · have hne' : e.id ≠ eid := by
                    intro hcon
                    exact hne (by rw [hcon, hkey])
                  show e.availableTickets = e.totalTickets -
                    confirmedSum e.id (db.bookings ++ [mkBooking db u eid q ev.ticketPrice])
                  rw [confirmedSum_append]
                  have hcb : contrib e.id (mkBooking db u eid q ev.ticketPrice) = 0 := by
                    unfold contrib mkBooking
                    rw [if_neg]
                    intro hcon
                    exact hne' hcon.1.symm
                  rw [hcb, add_zero]
                  exact h.conservation e he'

theorem inv_cancelBooking (db : DB) (u : Nat) (bid : Nat) (h : Inv db) :
    Inv (cancelBooking db u bid).2 := by
  unfold cancelBooking
  cases hfb : findBooking db bid with
  | none => exact h
  | some bk =>
    by_cases hcu : bk.customer ≠ u
    · simp only [if_pos hcu]
      exact h
    · simp only [if_neg hcu]
      by_cases hcs : bk.status = BookingStatus.cancelled
      · simp only [if_pos hcs]
        exact h
      · simp only [if_neg hcs]
        have hbmem : bk ∈ db.bookings := find?_key_mem Booking.id hfb
        have hbkey : bk.id = bid := find?_key_eq Booking.id hfb
        have hconf : bk.status = BookingStatus.confirmed := by
          cases hbs : bk.status
          · exact absurd hbs (h.bookingNotPending bk hbmem)
          · rfl
          · exact absurd hbs hcs
        cases hfe : findEvent (saveBooking db { bk with status := BookingStatus.cancelled })
            bk.event with
        | none =>
          exfalso
          have hex : ∃ e ∈ db.events, e.id = bk.event := h.bookingEventExists bk hbmem
          have := find?_isSome_of_exists Event.id hex
          unfold findEvent at hfe
          rw [show (saveBooking db { bk with status := BookingStatus.cancelled }).events =
            db.events from rfl] at hfe
          rw [hfe] at this
          simp at this
        | some ev =>
          have hemem : ev ∈ db.events := find?_key_mem Event.id hfe
          have hekey : ev.id = bk.event := find?_key_eq Event.id hfe
          have hsum : ∀ k : Nat,
              confirmedSum k (replaceBy Booking.id { bk with status := BookingStatus.cancelled }
                db.bookings) = confirmedSum k db.bookings - contrib k bk := by
            intro k
            rw [confirmedSum_replaceBy k bk { bk with status := BookingStatus.cancelled }
              h.bookingNodup hbmem rfl]
            have : contrib k { bk with status := BookingStatus.cancelled } = 0 := by
              unfold contrib
              rw [if_neg]
              intro hcon
              exact BookingStatus.noConfusion hcon.2
            rw [this, add_zero]
          show Inv
            { events := replaceBy Event.id
                { ev with availableTickets := ev.availableTickets + bk.quantity } db.events
              bookings := replaceBy Booking.id { bk with status := BookingStatus.cancelled }
                db.bookings
              nextEventId := db.nextEventId
              nextBookingId := db.nextBookingId }
          constructor
          · intro e he
            rcases mem_replaceBy Event.id he with rfl | ⟨he', _⟩
            · exact h.eventIdsLt ev hemem
            · exact h.eventIdsLt e he'
          · show ((replaceBy Event.id _ _).map Event.id).Nodup
            rw [replaceBy_map_key]
            exact h.eventNodup
          · intro b hb
            rcases mem_replaceBy Booking.id hb with rfl | ⟨hb', _⟩
            · exact h.bookingIdsLt bk hbmem
            · exact h.bookingIdsLt b hb'
          · show ((replaceBy Booking.id _ _).map Booking.id).Nodup
            rw [replaceBy_map_key]
            exact h.bookingNodup
          · intro b hb
            rcases mem_replaceBy Booking.id hb with rfl | ⟨hb', _⟩
            · exact h.bookingQty bk hbmem
            · exact h.bookingQty b hb'
          · intro b hb
            rcases mem_replaceBy Booking.id hb with rfl | ⟨hb', _⟩
            · exact exists_key_replaceBy Event.id (h.bookingEventExists bk hbmem)
            · exact exists_key_replaceBy Event.id (h.bookingEventExists b hb')
          · intro b hb
            rcases mem_replaceBy Booking.id hb with rfl | ⟨hb', _⟩
            · intro hcon
              exact BookingStatus.noConfusion hcon
            · exact h.bookingNotPending b hb'
          · intro e he
            rcases mem_replaceBy Event.id he with rfl | ⟨he', hne⟩
            · show ev.availableTickets + bk.quantity = ev.totalTickets - _
              rw [hsum]
              have hcb : contrib ev.id bk = bk.quantity := by
                unfold contrib
                rw [if_pos ⟨hekey.symm, hconf⟩]
              rw [hcb]
              have hc := h.conservation ev hemem
              linarith
            · show e.availableTickets = e.totalTickets - _
              rw [hsum]
              have hcb : contrib e.id bk = 0 := by
                unfold contrib
                rw [if_neg]
                intro hcon
                exact hne (show e.id = ev.id from (hekey.trans hcon.1).symm)
              rw [hcb, sub_zero]
              exact h.conservation e he'

/-- Every serialized operation preserves the reachable-state invariant. -/
theorem inv_applyOp (db : DB) (op : Op) (h : Inv db) : Inv (applyOp db op) := by
  cases op with
  | create u b => exact inv_createEvent db u b h
  | update u eid b => exact inv_updateEvent db u eid b h
  | publish u eid => exact inv_publishEvent db u eid h
  | book u b => exact inv_bookTickets db u b h
  | cancel u bid => exact inv_cancelBooking db u bid h

/-- The invariant holds after any serialized sequence of operations. -/
theorem inv_applyOps (db : DB) (ops : List Op) (h : Inv db) : Inv (applyOps db ops) := by
  induction ops generalizing db with
  | nil => exact h
  | cons op ops ih => exact ih (applyOp db op) (inv_applyOp db op h)

theorem applyUpdate_avail (ev : Event) (b : UpdateBody) :
    (applyUpdate ev b).availableTickets =
      match b.totalTickets with
      | some t => if t ≠ 0 ∧ t ≠ ev.totalTickets
                  then ev.availableTickets + (t - ev.totalTickets)
                  else ev.availableTickets
      | none => ev.availableTickets := by
  unfold applyUpdate
  cases b.totalTickets with
  | none => rfl
  | some t =>
    by_cases hch : t ≠ 0 ∧ t ≠ ev.totalTickets
    · simp only [if_pos hch, Option.getD_some]
    · simp only [if_neg hch, Option.getD_none, Option.getD_some]

theorem applyUpdate_total (ev : Event) (b : UpdateBody) :
    (applyUpdate ev b).totalTickets = b.totalTickets.getD ev.totalTickets := rfl

/-- All events currently have nonnegative `availableTickets`. -/
def availNonneg (db : DB) : Prop := ∀ e ∈ db.events, 0 ≤ e.availableTickets

/-- An operation is capacity-safe in a state when, if it is an `updateEvent`
that will go through and supplies `totalTickets`, the new total is at least
the number of already-booked tickets (`totalTickets - availableTickets`).
Every other operation is always capacity-safe. -/
def safeOp (db : DB) : Op → Bool
  | .update u eid body =>
    if validUpdateBody body then
      match findEvent db eid with
      | none => true
      | some ev =>
        if ev.organizer ≠ u then true
        else
          match body.totalTickets with
          | some t => decide (bookedCount ev ≤ t)
          | none => true
    else true
  | _ => true

/-- Every operation of the sequence is capacity-safe in the state it runs in. -/
def safeSeq : DB → List Op → Bool
  | _, [] => true
  | db, op :: ops => safeOp db op && safeSeq (applyOp db op) ops

theorem nonneg_applyOp (db : DB) (op : Op) (hInv : Inv db) (h0 : availNonneg db)
    (hs : safeOp db op = true) : availNonneg (applyOp db op) := by
  cases op with
  | create u body =>
    show availNonneg (createEvent db u body).2
    unfold createEvent
    by_cases hv : validCreateBody body
    · simp only [if_pos hv]
      intro e he
      rcases List.mem_append.mp he with he' | he'
      · exact h0 e he'
      · rw [List.mem_singleton.mp he']
        show (0 : Int) ≤ body.totalTickets
        unfold validCreateBody at hv
        simp only [Bool.and_eq_true, decide_eq_true_eq] at hv
        linarith [hv.1]
    · simp only [if_neg hv]
      exact h0
  | update u eid body =>
    show availNonneg (updateEvent db u eid body).2
    unfold updateEvent
    by_cases hv : validUpdateBody body
    · simp only [if_pos hv]
      cases hf : findEvent db eid with
      | none => exact h0
      | some ev =>
        by_cases ho : ev.organizer ≠ u
        · simp only [if_pos ho]
          exact h0
        · simp only [if_neg ho]
          have hev0 : 0 ≤ ev.availableTickets := h0 ev (find?_key_mem Event.id hf)
          have hs' : (match body.totalTickets with
              | some t => decide (bookedCount ev ≤ t)
              | none => true) = true := by
            have heq : safeOp db (Op.update u eid body) =
                (match body.totalTickets with
                 | some t => decide (bookedCount ev ≤ t)
                 | none => true) := by
              rw [safeOp, if_pos hv, hf]
              simp only [if_neg ho]
            rw [← heq]
            exact hs
          intro e he
          rcases mem_replaceBy Event.id he with rfl | ⟨he', _⟩
          · rw [applyUpdate_avail]
            cases ht : body.totalTickets with
            | none => exact hev0
            | some t =>
              rw [ht] at hs'
              have hbt : bookedCount ev ≤ t := by simpa using hs'
              unfold bookedCount at hbt
              show 0 ≤ if t ≠ 0 ∧ t ≠ ev.totalTickets
                  then ev.availableTickets + (t - ev.totalTickets)
                  else ev.availableTickets
              by_cases hch : t ≠ 0 ∧ t ≠ ev.totalTickets
              · rw [if_pos hch]
                linarith
              · rw [if_neg hch]
                exact hev0
          · exact h0 e he'
    · simp only [if_neg hv]
      exact h0
  | publish u eid =>
    show availNonneg (publishEvent db u eid).2
    unfold publishEvent
    cases hf : findEvent db eid with
    | none => exact h0
    | some ev =>
      by_cases ho : ev.organizer ≠ u
      · simp only [if_pos ho]
        exact h0
      · simp only [if_neg ho]
        intro e he
        rcases mem_replaceBy Event.id he with rfl | ⟨he', _⟩
        · exact h0 ev (find?_key_mem Event.id hf)
        · exact h0 e he'
  | book u body =>
    show availNonneg (bookTickets db u body).2
    unfold bookTickets
    cases hbe : body.eventId with
    | none => exact h0
    | some eid =>
      cases hbq : body.quantity with
      | none => exact h0
      | some q =>
        by_cases hq : q < 1
        · simp only [if_pos hq]
          exact h0
        · simp only [if_neg hq]
          cases hf : findEvent db eid with
          | none => exact h0
          | some ev =>
            by_cases hst : ev.status ≠ EventStatus.published
            · simp only [if_pos hst]
              exact h0
            · simp only [if_neg hst]
              by_cases hav : ev.availableTickets < q
              · simp only [if_pos hav]
                exact h0
              · simp only [if_neg hav]
                intro e he
                rcases mem_replaceBy Event.id he with rfl | ⟨he', _⟩
                · show 0 ≤ ev.availableTickets - q
                  omega
                · exact h0 e he'
  | cancel u bid =>
    show availNonneg (cancelBooking db u bid).2
    unfold cancelBooking
    cases hfb : findBooking db bid with
    | none => exact h0
    | some bk =>
      by_cases hcu : bk.customer ≠ u
      · simp only [if_pos hcu]
        exact h0
      · simp only [if_neg hcu]
        by_cases hcs : bk.status = BookingStatus.cancelled
        · simp only [if_pos hcs]
          exact h0
        · simp only [if_neg hcs]
          have hq : 1 ≤ bk.quantity := hInv.bookingQty bk (find?_key_mem Booking.id hfb)
          cases hfe : findEvent (saveBooking db { bk with status := BookingStatus.cancelled })
              bk.event with
          | none => exact h0
          | some ev =>
            have hev0 : 0 ≤ ev.availableTickets := by
              have hmem : ev ∈ db.events := find?_key_mem Event.id hfe
              exact h0 ev hmem
            intro e he
            rcases mem_replaceBy Event.id he with rfl | ⟨he', _⟩
            · show 0 ≤ ev.availableTickets + bk.quantity
              linarith
            · exact h0 e he'

theorem nonneg_applyOps (db : DB) (ops : List Op) (hInv : Inv db) (h0 : availNonneg db)
    (hs : safeSeq db ops = true) : availNonneg (applyOps db ops) := by
  induction ops generalizing db with
  | nil => exact h0
  | cons op ops ih =>
    simp only [safeSeq, Bool.and_eq_true] at hs
    exact ih (applyOp db op) (inv_applyOp db op hInv)
      (nonneg_applyOp db op hInv h0 hs.1) hs.2

/-! ## Claim C1 -/

/-- A serialized sequence that drives `availableTickets` negative: create an
event with 10 tickets, publish it, book all 10, then update `totalTickets`
down to 5. -/
def shrinkOps : List Op :=
  [Op.create 1 ⟨"Concert", "A concert", 0, "Hall", 10, 50, none⟩,
   Op.publish 1 0,
   Op.book 2 ⟨some 0, some 10⟩,
   Op.update 1 0 { emptyUpdate with totalTickets := some 5 }]

/-- Claim C1, counterexample: the invariant `0 ≤ availableTickets ≤
totalTickets` is not preserved by every serialized sequence of the five
operations — after `shrinkOps` the event's `availableTickets` is `-5`,
because `updateEvent` adjusts `availableTickets` by the change in
`totalTickets` without any lower-bound check. -/
theorem availableTickets_can_go_negative :
    (findEvent (applyOps initDB shrinkOps) 0).map Event.availableTickets = some (-5) ∧
    ¬ dbInvariant (applyOps initDB shrinkOps) := by
  constructor
  · rfl
  · decide

/-- Claim C1, amended: at every state reachable by a serialized sequence of
createEvent, updateEvent, publishEvent, bookTickets and cancelBooking,
`availableTickets ≤ totalTickets` holds unconditionally; and if every
updateEvent in the sequence that goes through keeps the new `totalTickets`
at least the already-booked count (`totalTickets - availableTickets`, the
capacity-safety condition `safeSeq`), then `0 ≤ availableTickets ≤
totalTickets` holds for every event. -/
theorem availableTickets_bounds (ops : List Op) :
    (∀ e ∈ (applyOps initDB ops).events, e.availableTickets ≤ e.totalTickets) ∧
    (safeSeq initDB ops = true →
      ∀ e ∈ (applyOps initDB ops).events,
        0 ≤ e.availableTickets ∧ e.availableTickets ≤ e.totalTickets) := by
  have hinv := inv_applyOps initDB ops inv_initDB
  refine ⟨avail_le_total_of_inv hinv, ?_⟩
  intro hs e he
  have h0 : availNonneg initDB := by
    intro e he
    simp [initDB] at he
  exact ⟨nonneg_applyOps initDB ops inv_initDB h0 hs e he,
    avail_le_total_of_inv hinv e he⟩

/-- A capacity-safe serialized sequence exercising all five operations:
create 10 tickets, publish, book 3, grow the event to 20 tickets, cancel. -/
def demoOps : List Op :=
  [Op.create 1 ⟨"Concert", "A concert", 0, "Hall", 10, 50, none⟩,
   Op.publish 1 0,
   Op.book 2 ⟨some 0, some 3⟩,
   Op.update 1 0 { emptyUpdate with totalTickets := some 20 },
   Op.cancel 2 0]

theorem availableTickets_bounds_witness :
    safeSeq initDB demoOps = true ∧
    (∀ e ∈ (applyOps initDB demoOps).events,
      0 ≤ e.availableTickets ∧ e.availableTickets ≤ e.totalTickets) :=
  ⟨by decide, (availableTickets_bounds demoOps).2 (by decide)⟩

/-! ## Claims C2 and C3 -/

/-- How `bookTickets` evaluates on a valid body when every check passes:
directly from the controller's success branch. -/
theorem bookTickets_run (db : DB) (u eid : Nat) (q : Int) (ev : Event)
    (hf : findEvent db eid = some ev) (hq : 1 ≤ q)
    (hst : ev.status = EventStatus.published) (hav : q ≤ ev.availableTickets) :
    bookTickets db u ⟨some eid, some q⟩ =
      (BookResult.created (mkBooking db u eid q ev.ticketPrice),
       saveEvent
         { db with
           bookings := db.bookings ++ [mkBooking db u eid q ev.ticketPrice]
           nextBookingId := db.nextBookingId + 1 }
         { ev with availableTickets := ev.availableTickets - q }) := by
  have hqlt : ¬ q < 1 := by omega
  have hst' : ¬ ev.status ≠ EventStatus.published := by simp [hst]
  have hav' : ¬ ev.availableTickets < q := by omega
  simp only [bookTickets, if_neg hqlt, hf, if_neg hst', if_neg hav']

/-- Claim C2: a book-tickets request with a valid body (eventId present,
quantity an integer ≥ 1) against an existing `published` event with
`availableTickets ≥ quantity` creates a `confirmed` booking whose
`totalPrice` is `quantity * ticketPrice`, stores it, decrements the event's
`availableTickets` by exactly the quantity, and returns the booking with
HTTP 201. -/
theorem bookTickets_success (db : DB) (u eid : Nat) (q : Int) (ev : Event)
    (hf : findEvent db eid = some ev) (hq : 1 ≤ q)
    (hst : ev.status = EventStatus.published) (hav : q ≤ ev.availableTickets) :
    ∃ b : Booking,
      (bookTickets db u ⟨some eid, some q⟩).1 = BookResult.created b ∧
      b.status = BookingStatus.confirmed ∧
      b.totalPrice = q * ev.ticketPrice ∧
      b.quantity = q ∧
      b.customer = u ∧
      ((bookTickets db u ⟨some eid, some q⟩).1).http = 201 ∧
      b ∈ (bookTickets db u ⟨some eid, some q⟩).2.bookings ∧
      findEvent (bookTickets db u ⟨some eid, some q⟩).2 eid =
        some { ev with availableTickets := ev.availableTickets - q } := by
  rw [bookTickets_run db u eid q ev hf hq hst hav]
  refine ⟨mkBooking db u eid q ev.ticketPrice, rfl, rfl, mul_comm ev.ticketPrice q, rfl, rfl,
    rfl, ?_, ?_⟩
  · exact List.mem_append_right _ (List.mem_singleton.mpr rfl)
  · exact find?_replaceBy_eq Event.id hf rfl

/-- A store holding one published event: id 0, owned by user 1, 10 total and
10 available tickets, unit price 50. -/
def sampleEvent : Event :=
  { id := 0
    title := "Concert"
    description := "A concert"
    organizer := 1
    date := 0
    location := "Hall"
    totalTickets := 10
    availableTickets := 10
    ticketPrice := 50
    status := EventStatus.published
    category := none }

def sampleDB : DB := { events := [sampleEvent], bookings := [], nextEventId := 1, nextBookingId := 0 }

theorem bookTickets_success_witness :
    ∃ b : Booking,
      (bookTickets sampleDB 2 ⟨some 0, some 3⟩).1 = BookResult.created b ∧
      b.status = BookingStatus.confirmed ∧
      b.totalPrice = 3 * sampleEvent.ticketPrice ∧
      b.quantity = 3 ∧
      b.customer = 2 ∧
      ((bookTickets sampleDB 2 ⟨some 0, some 3⟩).1).http = 201 ∧
      b ∈ (bookTickets sampleDB 2 ⟨some 0, some 3⟩).2.bookings ∧
      findEvent (bookTickets sampleDB 2 ⟨some 0, some 3⟩).2 0 =
        some { sampleEvent with availableTickets := sampleEvent.availableTickets - 3 } :=
  bookTickets_success sampleDB 2 0 3 sampleEvent rfl (by decide) rfl (by decide)

/-- Claim C3, amended: for book-tickets requests with a valid body, a
non-published target event yields HTTP 400 with the `Event is not published`
reason, a published event with `availableTickets < quantity` yields HTTP 400
reporting the exact remaining count, and in both failure cases the store —
bookings and the event's `availableTickets` — is left unchanged. -/
theorem bookTickets_failure (db : DB) (u eid : Nat) (q : Int) (ev : Event)
    (hf : findEvent db eid = some ev) (hq : 1 ≤ q) :
    (ev.status ≠ EventStatus.published →
      bookTickets db u ⟨some eid, some q⟩ = (BookResult.notPublished, db) ∧
      BookResult.http BookResult.notPublished = 400 ∧
      bookMessage BookResult.notPublished = some "Event is not published") ∧
    (ev.status = EventStatus.published → ev.availableTickets < q →
      bookTickets db u ⟨some eid, some q⟩ =
        (BookResult.insufficientTickets ev.availableTickets, db) ∧
      BookResult.http (BookResult.insufficientTickets ev.availableTickets) = 400 ∧
      bookMessage (BookResult.insufficientTickets ev.availableTickets) =
        some ("Not enough tickets available. Only " ++ toString ev.availableTickets ++
          " remaining")) := by
  have hqlt : ¬ q < 1 := by omega
  constructor
  · intro hst
    refine ⟨?_, rfl, rfl⟩
    simp only [bookTickets, if_neg hqlt, hf, if_pos hst]
  · intro hst hav
    have hst' : ¬ ev.status ≠ EventStatus.published := by simp [hst]
    refine ⟨?_, rfl, rfl⟩
    simp only [bookTickets, if_neg hqlt, hf, if_neg hst', if_pos hav]

/-- A store holding one `draft` event: id 0, owned by user 1, 10 tickets. -/
def draftDB : DB :=
  { events := [{ sampleEvent with status := EventStatus.draft }]
    bookings := []
    nextEventId := 1
    nextBookingId := 0 }

theorem bookTickets_failure_witness :
    bookTickets draftDB 2 ⟨some 0, some 1⟩ = (BookResult.notPublished, draftDB) ∧
    bookTickets sampleDB 2 ⟨some 0, some 11⟩ =
      (BookResult.insufficientTickets 10, sampleDB) :=
  ⟨((bookTickets_failure draftDB 2 0 1 { sampleEvent with status := EventStatus.draft }
      rfl (by decide)).1 (by decide)).1,
   ((bookTickets_failure sampleDB 2 0 11 sampleEvent rfl (by decide)).2 rfl (by decide)).1⟩

/-- Claim C3, counterexample: a book-tickets request whose body fails Joi
validation (quantity 0) against an existing non-published event is rejected
by the validation step, so its failure reason is not `Event is not
published` — the claim's quantification over every request against an
existing draft event fails. -/
theorem bookTickets_draft_not_always_notPublished :
    (findEvent draftDB 0).map Event.status = some EventStatus.draft ∧
    (bookTickets draftDB 2 ⟨some 0, some 0⟩).1 = BookResult.validationError ∧
    bookMessage (bookTickets draftDB 2 ⟨some 0, some 0⟩).1 ≠ some "Event is not published" := by
  refine ⟨rfl, rfl, ?_⟩
  decide

/-! ## Claims C4 and C5 -/

theorem findEvent_saveBooking (db : DB) (b : Booking) (eid : Nat) :
    findEvent (saveBooking db b) eid = findEvent db eid := rfl

theorem findBooking_saveEvent (db : DB) (e : Event) (bid : Nat) :
    findBooking (saveEvent db e) bid = findBooking db bid := rfl

/-- How `cancelBooking` evaluates when every check passes: directly from the
controller's success branch (save the cancelled booking, then restore the
event's tickets). -/
theorem cancelBooking_run (db : DB) (u bid : Nat) (bk : Booking) (ev : Event)
    (hfb : findBooking db bid = some bk) (hcu : bk.customer = u)
    (hcs : bk.status ≠ BookingStatus.cancelled)
    (hfe : findEvent db bk.event = some ev) :
    cancelBooking db u bid =
      (CancelResult.ok { bk with status := BookingStatus.cancelled },
       saveEvent (saveBooking db { bk with status := BookingStatus.cancelled })
         { ev with availableTickets := ev.availableTickets + bk.quantity }) := by
  have hcu' : ¬ bk.customer ≠ u := by simp [hcu]
  simp only [cancelBooking, hfb, if_neg hcu', if_neg hcs, findEvent_saveBooking, hfe]

/-- Claim C4: a cancel request by the booking's own customer on a booking
that is not yet `cancelled` sets the booking's status to `cancelled`,
increases the owning event's `availableTickets` by exactly the booking's
quantity and returns HTTP 200; if the booking is already `cancelled` the
request fails with HTTP 400 and both booking and event are unchanged. -/
theorem cancelBooking_spec (db : DB) (u bid : Nat) (bk : Booking) (ev : Event)
    (hfb : findBooking db bid = some bk) (hcu : bk.customer = u)
    (hfe : findEvent db bk.event = some ev) :
    (bk.status ≠ BookingStatus.cancelled →
      (cancelBooking db u bid).1 =
        CancelResult.ok { bk with status := BookingStatus.cancelled } ∧
      ((cancelBooking db u bid).1).http = 200 ∧
      findBooking (cancelBooking db u bid).2 bid =
        some { bk with status := BookingStatus.cancelled } ∧
      findEvent (cancelBooking db u bid).2 bk.event =
        some { ev with availableTickets := ev.availableTickets + bk.quantity }) ∧
    (bk.status = BookingStatus.cancelled →
      cancelBooking db u bid = (CancelResult.alreadyCancelled, db) ∧
      CancelResult.http CancelResult.alreadyCancelled = 400) := by
  constructor
  · intro hcs
    rw [cancelBooking_run db u bid bk ev hfb hcu hcs hfe]
    refine ⟨rfl, rfl, ?_, ?_⟩
    · rw [findBooking_saveEvent]
      exact find?_replaceBy_eq Booking.id hfb rfl
    · exact find?_replaceBy_eq Event.id hfe rfl
  · intro hcs
    have hcu' : ¬ bk.customer ≠ u := by simp [hcu]
    refine ⟨?_, rfl⟩
    simp only [cancelBooking, hfb, if_neg hcu', if_pos hcs]

/-- A 3-ticket confirmed booking by customer 2 on `sampleEvent`. -/
def sampleBooking : Booking :=
  { id := 0
    customer := 2
    event := 0
    quantity := 3
    totalPrice := 150
    status := BookingStatus.confirmed
    bookingReference := "BK0" }

/-- `sampleDB` after `sampleBooking` was made: 7 of 10 tickets remain. -/
def bookedDB : DB :=
  { events := [{ sampleEvent with availableTickets := 7 }]
    bookings := [sampleBooking]
    nextEventId := 1
    nextBookingId := 1 }

theorem cancelBooking_spec_witness :
    (cancelBooking bookedDB 2 0).1 =
      CancelResult.ok { sampleBooking with status := BookingStatus.cancelled } ∧
    findEvent (cancelBooking bookedDB 2 0).2 0 =
      some { sampleEvent with availableTickets := 10 } := by
  have h := (cancelBooking_spec bookedDB 2 0 sampleBooking
    { sampleEvent with availableTickets := 7 } rfl rfl rfl).1 (by decide)
  exact ⟨h.1, h.2.2.2⟩

/-- Saving an event that only changes `availableTickets` (by `d`) of a found
event makes the lookup return exactly the saved copy. -/
theorem findEvent_saveEvent_avail {db : DB} {eid : Nat} {ev : Event} (d : Int)
    (h : findEvent db eid = some ev) :
    findEvent (saveEvent db { ev with availableTickets := ev.availableTickets + d }) eid =
      some { ev with availableTickets := ev.availableTickets + d } :=
  find?_replaceBy_eq Event.id h rfl

/-- Claim C5: on a published event with `a` available tickets, booking
`1 ≤ q ≤ a` tickets and then cancelling the booking just created restores
`availableTickets` to exactly `a`. (The freshness hypothesis on
`nextBookingId` is part of the store model: MongoDB ids are never reused.) -/
theorem book_then_cancel_restores (db : DB) (u eid : Nat) (q : Int) (ev : Event)
    (hf : findEvent db eid = some ev) (hq : 1 ≤ q)
    (hst : ev.status = EventStatus.published) (hav : q ≤ ev.availableTickets)
    (hfresh : ∀ b ∈ db.bookings, b.id ≠ db.nextBookingId) :
    ∃ b : Booking,
      (bookTickets db u ⟨some eid, some q⟩).1 = BookResult.created b ∧
      (findEvent (cancelBooking (bookTickets db u ⟨some eid, some q⟩).2 u b.id).2 eid).map
        Event.availableTickets = some ev.availableTickets := by
  refine ⟨mkBooking db u eid q ev.ticketPrice, ?_, ?_⟩
  · rw [bookTickets_run db u eid q ev hf hq hst hav]
  · rw [bookTickets_run db u eid q ev hf hq hst hav]
    set B : Booking := mkBooking db u eid q ev.ticketPrice with hB
    set ev1 : Event := { ev with availableTickets := ev.availableTickets - q } with hev1
    set D1 : DB := saveEvent
      { db with
        bookings := db.bookings ++ [B]
        nextBookingId := db.nextBookingId + 1 } ev1 with hD1
    have h1 : findBooking D1 B.id = some B := find?_append_self Booking.id hfresh
    have h2 : findEvent D1 eid = some ev1 := by
      rw [hD1, hev1]
      exact find?_replaceBy_eq Event.id hf rfl
    rw [cancelBooking_run D1 u B.id B ev1 h1 (by rw [hB]; rfl)
      (by rw [hB]; exact fun hcon => BookingStatus.noConfusion hcon) h2]
    have h2' : findEvent (saveBooking D1 { B with status := BookingStatus.cancelled }) eid =
        some ev1 := h2
    rw [findEvent_saveEvent_avail B.quantity h2']
    show some (ev1.availableTickets + B.quantity) = some ev.availableTickets
    rw [hev1, hB]
    show some (ev.availableTickets - q + q) = some ev.availableTickets
    rw [sub_add_cancel]

theorem book_then_cancel_restores_witness :
    ∃ b : Booking,
      (bookTickets sampleDB 2 ⟨some 0, some 3⟩).1 = BookResult.created b ∧
      (findEvent (cancelBooking (bookTickets sampleDB 2 ⟨some 0, some 3⟩).2 2 b.id).2 0).map
        Event.availableTickets = some sampleEvent.availableTickets :=
  book_then_cancel_restores sampleDB 2 0 3 sampleEvent rfl (by decide) rfl (by decide)
    (by decide)

/-! ## Claim C6 -/

/-- Claim C6, amended: ownership is enforced with 403 (not 404) on existing
resources — for update requests with a valid body and for all delete and
publish requests by a non-owning authenticated account, and for booking
views by an account that is neither the customer nor the event's organizer —
each leaving the store unchanged; requests for a non-existent resource
(update again with a valid body) fail with 404. -/
theorem ownership_enforced (db : DB) (u eid bid : Nat) (body : UpdateBody)
    (ev ev2 : Event) (bk : Booking) (hbody : validUpdateBody body = true) :
    (findEvent db eid = some ev → ev.organizer ≠ u →
      updateEvent db u eid body = (UpdateResult.forbidden, db) ∧
      UpdateResult.http UpdateResult.forbidden = 403 ∧
      deleteEvent db u eid = (DeleteResult.forbidden, db) ∧
      publishEvent db u eid = (PublishResult.forbidden, db)) ∧
    (findBooking db bid = some bk → bk.customer ≠ u →
      findEvent db bk.event = some ev2 → ev2.organizer ≠ u →
      getBookingById db u bid = GetBookingResult.forbidden ∧
      GetBookingResult.http GetBookingResult.forbidden = 403) ∧
    (findEvent db eid = none →
      updateEvent db u eid body = (UpdateResult.notFound, db) ∧
      deleteEvent db u eid = (DeleteResult.notFound, db) ∧
      publishEvent db u eid = (PublishResult.notFound, db) ∧
      UpdateResult.http UpdateResult.notFound = 404) ∧
    (findBooking db bid = none → getBookingById db u bid = GetBookingResult.notFound) := by
  refine ⟨?_, ?_, ?_, ?_⟩
  · intro hf ho
    refine ⟨?_, rfl, ?_, ?_⟩
    · simp only [updateEvent, if_pos hbody, hf, if_pos ho]
    · simp only [deleteEvent, hf, if_pos ho]
    · simp only [publishEvent, hf, if_pos ho]
  · intro hfb hbc hfe ho
    refine ⟨?_, rfl⟩
    simp only [getBookingById, hfb, if_pos hbc, hfe, if_pos ho]
  · intro hf
    refine ⟨?_, ?_, ?_, rfl⟩
    · simp only [updateEvent, if_pos hbody, hf]
    · simp only [deleteEvent, hf]
    · simp only [publishEvent, hf]
  · intro hfb
    simp only [getBookingById, hfb]

theorem ownership_enforced_witness :
    updateEvent bookedDB 3 0 emptyUpdate = (UpdateResult.forbidden, bookedDB) ∧
    publishEvent bookedDB 3 0 = (PublishResult.forbidden, bookedDB) ∧
    deleteEvent bookedDB 3 0 = (DeleteResult.forbidden, bookedDB) ∧
    getBookingById bookedDB 3 0 = GetBookingResult.forbidden := by
  have h := ownership_enforced bookedDB 3 0 0 emptyUpdate
    { sampleEvent with availableTickets := 7 } { sampleEvent with availableTickets := 7 }
    sampleBooking (by decide)
  have h1 := h.1 rfl (by decide)
  have h2 := h.2.1 rfl (by decide) rfl (by decide)
  exact ⟨h1.1, h1.2.2.2, h1.2.2.1, h2.1⟩

/-- An update body that fails Joi validation: `totalTickets` below `min(1)`. -/
def invalidUpdate : UpdateBody := { emptyUpdate with totalTickets := some 0 }

/-- Claim C6, counterexample: an update request with an invalid body against
an existing event owned by someone else is rejected with 400 (validation),
not 403 — the controller validates the body before the ownership check, so
not every non-owner update request yields `forbidden`. -/
theorem nonOwner_update_not_always_forbidden :
    (findEvent sampleDB 0).map Event.organizer = some 1 ∧
    (updateEvent sampleDB 2 0 invalidUpdate).1 = UpdateResult.validationError ∧
    ((updateEvent sampleDB 2 0 invalidUpdate).1).http = 400 ∧
    (updateEvent sampleDB 2 0 invalidUpdate).1 ≠ UpdateResult.forbidden := by
  exact ⟨rfl, rfl, rfl, by decide⟩

/-! ## Claim C8 -/

/-- Claim C8: an updateEvent by the owner with a valid body that supplies a
`totalTickets` different from the current one sets `availableTickets` to the
old value plus the difference in `totalTickets`; equivalently the booked
count `totalTickets - availableTickets` is unchanged by every updateEvent
that goes through — even when the new total is below the booked count. -/
theorem updateEvent_shifts_available (db : DB) (u eid : Nat) (body : UpdateBody) (ev : Event)
    (hv : validUpdateBody body = true) (hf : findEvent db eid = some ev)
    (ho : ev.organizer = u) :
    (updateEvent db u eid body).1 = UpdateResult.ok (applyUpdate ev body) ∧
    findEvent (updateEvent db u eid body).2 eid = some (applyUpdate ev body) ∧
    bookedCount (applyUpdate ev body) = bookedCount ev ∧
    (∀ t : Int, body.totalTickets = some t → t ≠ ev.totalTickets →
      (applyUpdate ev body).totalTickets = t ∧
      (applyUpdate ev body).availableTickets =
        ev.availableTickets + (t - ev.totalTickets)) := by
  have ho' : ¬ ev.organizer ≠ u := by simp [ho]
  have hrun : updateEvent db u eid body =
      (UpdateResult.ok (applyUpdate ev body), saveEvent db (applyUpdate ev body)) := by
    simp only [updateEvent, if_pos hv, hf, if_neg ho']
  refine ⟨by rw [hrun], ?_, ?_, ?_⟩
  · rw [hrun]
    exact find?_replaceBy_eq Event.id hf rfl
  · unfold bookedCount
    rw [applyUpdate_total, applyUpdate_avail]
    cases ht : body.totalTickets with
    | none => rfl
    | some t =>
      have h1 : 1 ≤ t := by
        unfold validUpdateBody at hv
        rw [ht] at hv
        simp only [Option.all_some, Bool.and_eq_true, decide_eq_true_eq] at hv
        exact hv.1
      show t - (if t ≠ 0 ∧ t ≠ ev.totalTickets
          then ev.availableTickets + (t - ev.totalTickets)
          else ev.availableTickets) =
        ev.totalTickets - ev.availableTickets
      by_cases hch : t ≠ 0 ∧ t ≠ ev.totalTickets
      · rw [if_pos hch]
        ring
      · have hte : t = ev.totalTickets := by
          by_contra hne
          exact hch ⟨by omega, hne⟩
        rw [if_neg hch, hte]
  · intro t ht hne
    have h1 : 1 ≤ t := by
      unfold validUpdateBody at hv
      rw [ht] at hv
      simp only [Option.all_some, Bool.and_eq_true, decide_eq_true_eq] at hv
      exact hv.1
    have hch : t ≠ 0 ∧ t ≠ ev.totalTickets := ⟨by omega, hne⟩
    refine ⟨?_, ?_⟩
    · rw [applyUpdate_total, ht]
      rfl
    · rw [applyUpdate_avail, ht]
      show (if t ≠ 0 ∧ t ≠ ev.totalTickets
          then ev.availableTickets + (t - ev.totalTickets)
          else ev.availableTickets) = ev.availableTickets + (t - ev.totalTickets)
      rw [if_pos hch]

theorem updateEvent_shifts_available_witness :
    (findEvent (updateEvent bookedDB 1 0 { emptyUpdate with totalTickets := some 5 }).2 0).map
      Event.availableTickets = some 2 := by
  have h := updateEvent_shifts_available bookedDB 1 0
    { emptyUpdate with totalTickets := some 5 }
    { sampleEvent with availableTickets := 7 } (by decide) rfl rfl
  rw [h.2.1]
  rfl

/-! ## Claim C9 -/

/-- Saving the same event twice equals saving it once. -/
theorem saveEvent_saveEvent (db : DB) (e : Event) :
    saveEvent (saveEvent db e) e = saveEvent db e := by
  have h : replaceBy Event.id e (replaceBy Event.id e db.events) =
      replaceBy Event.id e db.events := replaceBy_replaceBy Event.id
  show DB.mk (replaceBy Event.id e (replaceBy Event.id e db.events))
      db.bookings db.nextEventId db.nextBookingId =
    DB.mk (replaceBy Event.id e db.events) db.bookings db.nextEventId db.nextBookingId
  rw [h]

/-- Claim C9: publishEvent by the owning organizer sets the event's status to
`published` regardless of its prior status, leaves every other field
unchanged (title, description, organizer, date, location, totalTickets,
availableTickets, ticketPrice, category), leaves bookings and every other
event untouched, and is idempotent. -/
theorem publishEvent_spec (db : DB) (u eid : Nat) (ev : Event)
    (hf : findEvent db eid = some ev) (ho : ev.organizer = u) :
    (publishEvent db u eid).1 =
      PublishResult.ok { ev with status := EventStatus.published } ∧
    findEvent (publishEvent db u eid).2 eid =
      some { ev with status := EventStatus.published } ∧
    ({ ev with status := EventStatus.published }).status = EventStatus.published ∧
    ({ ev with status := EventStatus.published }).title = ev.title ∧
    ({ ev with status := EventStatus.published }).description = ev.description ∧
    ({ ev with status := EventStatus.published }).organizer = ev.organizer ∧
    ({ ev with status := EventStatus.published }).date = ev.date ∧
    ({ ev with status := EventStatus.published }).location = ev.location ∧
    ({ ev with status := EventStatus.published }).totalTickets = ev.totalTickets ∧
    ({ ev with status := EventStatus.published }).availableTickets = ev.availableTickets ∧
    ({ ev with status := EventStatus.published }).ticketPrice = ev.ticketPrice ∧
    ({ ev with status := EventStatus.published }).category = ev.category ∧
    (publishEvent db u eid).2.bookings = db.bookings ∧
    (∀ k : Nat, k ≠ eid → findEvent (publishEvent db u eid).2 k = findEvent db k) ∧
    (publishEvent (publishEvent db u eid).2 u eid).2 = (publishEvent db u eid).2 := by
  have ho' : ¬ ev.organizer ≠ u := by simp [ho]
  have hkey : ev.id = eid := find?_key_eq Event.id hf
  have hrun : publishEvent db u eid =
      (PublishResult.ok { ev with status := EventStatus.published },
       saveEvent db { ev with status := EventStatus.published }) := by
    simp only [publishEvent, hf, if_neg ho']
  have hf2 : findEvent (saveEvent db { ev with status := EventStatus.published }) eid =
      some { ev with status := EventStatus.published } :=
    find?_replaceBy_eq Event.id hf rfl
  refine ⟨by rw [hrun], by rw [hrun]; exact hf2, rfl, rfl, rfl, rfl, rfl, rfl, rfl, rfl, rfl,
    rfl, by rw [hrun]; rfl, ?_, ?_⟩
  · intro k hk
    rw [hrun]
    refine find?_replaceBy_ne Event.id ?_
    show ev.id ≠ k
    rw [hkey]
    exact fun hcon => hk hcon.symm
  · rw [hrun]
    have hidem : { { ev with status := EventStatus.published } with
        status := EventStatus.published } = { ev with status := EventStatus.published } := rfl
    have hrun2 : publishEvent (saveEvent db { ev with status := EventStatus.published }) u eid =
        (PublishResult.ok { ev with status := EventStatus.published },
         saveEvent (saveEvent db { ev with status := EventStatus.published })
           { ev with status := EventStatus.published }) := by
      simp only [publishEvent, hf2, if_neg ho', hidem]
    rw [hrun2]
    exact saveEvent_saveEvent db { ev with status := EventStatus.published }

theorem publishEvent_spec_witness :
    (publishEvent draftDB 1 0).1 =
      PublishResult.ok { { sampleEvent with status := EventStatus.draft } with
        status := EventStatus.published } ∧
    (publishEvent (publishEvent draftDB 1 0).2 1 0).2 = (publishEvent draftDB 1 0).2 := by
  have h := publishEvent_spec draftDB 1 0 { sampleEvent with status := EventStatus.draft }
    rfl rfl
  exact ⟨h.1, h.2.2.2.2.2.2.2.2.2.2.2.2.2.2⟩

/-! ## Claim C10 -/

/-- Claim C10: a list-events request with no status query parameter returns
only events whose status is `published` — the filter defaults to
`'published'`, so draft and cancelled events never appear unless the status
parameter asks for them. -/
theorem getEvents_default_published (db : DB) (cat : Option String) :
    ∀ e ∈ getEvents db none cat, e.status = EventStatus.published := by
  intro e he
  unfold getEvents at he
  rw [List.mem_filter] at he
  have hs := he.2
  simp only [Option.getD_none, Bool.and_eq_true, beq_iff_eq] at hs
  cases hstat : e.status with
  | published => rfl
  | draft =>
    rw [hstat] at hs
    exact absurd hs.1 (by decide)
  | cancelled =>
    rw [hstat] at hs
    exact absurd hs.1 (by decide)

/-- Draft, published and cancelled variants of `sampleEvent`, category `music`. -/
def musicDraft : Event :=
  { sampleEvent with id := 0, status := EventStatus.draft, category := some "music" }

def musicPublished : Event :=
  { sampleEvent with id := 1, status := EventStatus.published, category := some "music" }

def musicCancelled : Event :=
  { sampleEvent with id := 2, status := EventStatus.cancelled, category := some "music" }

/-- A store with one event of each status. -/
def mixedDB : DB :=
  { events := [musicDraft, musicPublished, musicCancelled]
    bookings := []
    nextEventId := 3
    nextBookingId := 0 }

theorem getEvents_default_published_witness :
    musicPublished ∈ getEvents mixedDB none none ∧
    musicPublished.status = EventStatus.published :=
  ⟨by decide, getEvents_default_published mixedDB none musicPublished (by decide)⟩

/-! ## Claim C7

The controller is an unguarded read-modify-write: it `await`s
`Event.findById` (the read), checks `status` and `availableTickets` on that
snapshot, and later `await`s `event.save()` (the write), which persists the
snapshot-derived document. Under concurrency the read of one request can
happen before the write of another, so both check against the same stale
count. `bookCheck`/`bookWrite` are the two phases; `bookTickets_eq_read_write`
ties the split model back to the serialized controller. -/

/-- The availability check `bookTickets` performs on the event snapshot it
read (with the Joi `min(1)` on quantity). -/
def bookCheck (ev : Event) (q : Int) : Bool :=
  decide (1 ≤ q) && decide (ev.status = EventStatus.published) &&
    decide (q ≤ ev.availableTickets)

/-- The write phase of `bookTickets`: insert the confirmed booking and save
the event document derived from the snapshot the request read earlier
(`availableTickets := snapshot.availableTickets - q`). -/
def bookWrite (db : DB) (userId : Nat) (snapshot : Event) (q : Int) : DB :=
  saveEvent
    { db with
      bookings := db.bookings ++ [mkBooking db userId snapshot.id q snapshot.ticketPrice]
      nextBookingId := db.nextBookingId + 1 }
    { snapshot with availableTickets := snapshot.availableTickets - q }

/-- Serialized, `bookTickets` is exactly read-then-write: when the snapshot
passes the check, the controller's result is the write phase applied to the
snapshot it just read. -/
theorem bookTickets_eq_read_write (db : DB) (u eid : Nat) (q : Int) (ev : Event)
    (hf : findEvent db eid = some ev) (hchk : bookCheck ev q = true) :
    bookTickets db u ⟨some eid, some q⟩ =
      (BookResult.created (mkBooking db u eid q ev.ticketPrice), bookWrite db u ev q) := by
  have hchk' : (1 ≤ q ∧ ev.status = EventStatus.published) ∧ q ≤ ev.availableTickets := by
    simpa [bookCheck, and_assoc] using hchk
  have hkey : ev.id = eid := find?_key_eq Event.id hf
  rw [bookTickets_run db u eid q ev hf hchk'.1.1 hchk'.1.2 hchk'.2]
  unfold bookWrite
  rw [hkey]

/-- The interleaving read₁ read₂ write₁ write₂ of two concurrent
`bookTickets` requests against the same event: both `findById` reads happen
before either `save`, so both requests check the same snapshot. `none` when
either snapshot fails the check (that request would answer 400 without
writing). -/
def twoInterleavedBookings (db : DB) (u1 u2 eid : Nat) (q1 q2 : Int) : Option DB :=
  match findEvent db eid with
  | none => none
  | some snap =>
    if bookCheck snap q1 && bookCheck snap q2 then
      some (bookWrite (bookWrite db u1 snap q1) u2 snap q2)
    else none

/-- A published event with a single remaining ticket. -/
def hotEvent : Event := { sampleEvent with totalTickets := 1, availableTickets := 1 }

def hotDB : DB := { events := [hotEvent], bookings := [], nextEventId := 1, nextBookingId := 0 }

/-- Claim C7, failing run: with 1 ticket available and two concurrent
1-ticket requests interleaved read-read-write-write, both requests pass the
check and both create confirmed bookings — 2 tickets sold of 1, an
oversell, where the claim demands one success and one `CapacityError`.
(Serialized, the code does behave as claimed: the second request fails with
remaining 0.) -/
theorem concurrent_booking_oversells :
    hotEvent.totalTickets = 1 ∧
    (twoInterleavedBookings hotDB 2 3 0 1 1).map
      (fun d => confirmedSum 0 d.bookings) = some 2 ∧
    (twoInterleavedBookings hotDB 2 3 0 1 1).map
      (fun d => (findEvent d 0).map Event.availableTickets) = some (some 0) ∧
    (bookTickets (bookTickets hotDB 2 ⟨some 0, some 1⟩).2 3 ⟨some 0, some 1⟩).1 =
      BookResult.insufficientTickets 0 := by
  refine ⟨rfl, rfl, rfl, rfl⟩

end EventBooking
